import Mathlib

/-!
Shallow embedding of the pi-slideshow-rs rendering pipeline and playback
state machine (src/pi-slideshow-rs/src/main.rs, slideshow_controller.rs,
http_server.rs), with theorems settling the specification claims about the
transition engine, the image-loading pipeline, the framebuffer sink and the
slideshow controller.

Modelling conventions:
* `f32` values are modelled as exact rationals (`ℚ`).  The claims under
  study are algebraic identities at the distinguished progress values 0
  and 1 and exact bound checks, where `f32` evaluation agrees with exact
  rational arithmetic on the integer/simple-fraction inputs involved.
* Rust's saturating float-to-integer casts (`as u8`, `as i32`, `as u32`)
  are modelled by explicit clamped truncation (`castU8`, `truncQ`).
* `f32` division is partial at `0.0/0.0` (NaN); it is modelled by
  `f32Div`, which returns `none` exactly when the divisor is zero.
* Library calls with no arithmetic content visible at this boundary
  (transcendental functions, the `fastrand` RNG stream, the 5x7 bitmap
  font table, `imageops::resize` output pixels) are oracle parameters:
  the embedded code applies them exactly where the source does, and every
  theorem quantifies over all oracles.
-/

namespace Signage

/-- Rust saturating cast `as u8` from a (modelled) f32 value:
clamp to [0, 255] and truncate toward zero. -/
def castU8 (q : ℚ) : ℕ :=
  if q < 0 then 0 else if (255 : ℚ) < q then 255 else (⌊q⌋).toNat

/-- Rust cast `as i32`/`as i64` from a (modelled) f32 value:
truncation toward zero. -/
def truncQ (q : ℚ) : ℤ :=
  if 0 ≤ q then ⌊q⌋ else -⌊-q⌋

/-- Model of `f32` division: `none` stands for the non-finite results
(NaN from `0.0/0.0`, infinities from `x/0.0`), `some (a / b)` otherwise. -/
def f32Div (a b : ℚ) : Option ℚ :=
  if b = 0 then none else some (a / b)

/-- One RGBA pixel (each channel an 8-bit value, modelled as `ℕ`). -/
structure Pix where
  r : ℕ
  g : ℕ
  b : ℕ
  a : ℕ
  deriving Repr, DecidableEq

/-- A canvas is a pixel grid, addressed as `canvas x y`; the live area is
given separately by width/height arguments, matching `RgbaImage`. -/
abbrev Canvas := ℕ → ℕ → Pix

/-- The opaque black background pixel `Rgba([0, 0, 0, 255])`. -/
def blackPix : Pix := ⟨0, 0, 0, 255⟩

/-- A pixel is well formed when every channel fits in 8 bits. -/
def PixWf (p : Pix) : Prop :=
  p.r ≤ 255 ∧ p.g ≤ 255 ∧ p.b ≤ 255 ∧ p.a ≤ 255

/-- A canvas is well formed when all its pixels are. -/
def CanvasWf (c : Canvas) : Prop :=
  ∀ x y, PixWf (c x y)

/-- `enum TransitionType` from main.rs. -/
inductive TransitionType where
  | Fade
  | Dissolve
  | SlideLeft
  | SlideRight
  | SlideUp
  | SlideDown
  | WipeLeft
  | WipeRight
  | WipeUp
  | WipeDown
  | Morph
  | Bounce
  | Elastic
  | EaseIn
  | EaseOut
  | EaseInOut
  | Accelerated
  | CircularWipe
  | DiagonalWipe
  | Pixelate
  deriving Repr, DecidableEq

/-- Oracle parameters for library calls whose numeric content is opaque at
this boundary.  Every theorem below holds for all oracles. -/
structure Oracles where
  /-- `f32::sin`, used by the Morph x displacement. -/
  sinO : ℚ → ℚ
  /-- `f32::cos`, used by the Morph y displacement. -/
  cosO : ℚ → ℚ
  /-- The value of the Elastic easing on the open interval (0,1) (the
  source computes it there with `powf`, `sin` and π; the `t = 0` and
  `t = 1` branches are explicit in the source and in `applyEasing`). -/
  elasticMid : ℚ → ℚ
  /-- Per-pixel `fastrand::f32()` draw consumed by the Dissolve loop. -/
  randPix : ℕ → ℕ → ℚ
  /-- Per-block `fastrand::f32()` draw consumed by the Pixelate loop. -/
  randBlock : ℕ → ℕ → ℚ
  /-- The 5x7 bitmap font: `pat i row col` is true when the glyph of the
  i-th character of the overlay label has a block at (row, col). -/
  pat : ℕ → ℕ → ℕ → Bool

/-- `ImageManager::apply_easing`: per-kind easing applied to raw progress.
`Elastic` at interior points is the `elasticMid` oracle; all other arms are
the source's arithmetic verbatim (the `_` arm is the identity). -/
def applyEasing (o : Oracles) (t : ℚ) : TransitionType → ℚ
  | .EaseIn => t * t
  | .EaseOut => 1 - (1 - t) * (1 - t)
  | .EaseInOut => if t < 1/2 then 2 * t * t else 1 - 2 * (1 - t) * (1 - t)
  | .Bounce =>
      if t < 1/2 then 4 * t * t * t
      else 1 + (2 * t - 2) * (2 * t - 2) * (2 * t - 2) + 1
  | .Elastic => if t = 0 then 0 else if t = 1 then 1 else o.elasticMid t
  | .Accelerated => t * t * t
  | _ => t

/-- Per-channel linear blend of two pixels by `alpha`
(`ImageManager::blend_images_simple`, per pixel). -/
def blendPixels (alpha : ℚ) (p1 p2 : Pix) : Pix :=
  ⟨castU8 ((p1.r : ℚ) * (1 - alpha) + (p2.r : ℚ) * alpha),
   castU8 ((p1.g : ℚ) * (1 - alpha) + (p2.g : ℚ) * alpha),
   castU8 ((p1.b : ℚ) * (1 - alpha) + (p2.b : ℚ) * alpha),
   castU8 ((p1.a : ℚ) * (1 - alpha) + (p2.a : ℚ) * alpha)⟩

/-- `ImageManager::dissolve_transition`, per pixel: a Bernoulli draw with
threshold `progress` picks the `to` pixel. -/
def dissolvePix (o : Oracles) (img1 img2 : Canvas) (p : ℚ) (x y : ℕ) : Pix :=
  if o.randPix x y < p then img2 x y else img1 x y

/-- `ImageManager::slide_transition`, per pixel: both canvases translated
by `progress × extent` along (dirx, diry); img2 wins where its translated
content covers the output pixel, then img1, else background black. -/
def slidePix (img1 img2 : Canvas) (w h : ℕ) (p : ℚ) (dirx diry : ℤ)
    (x y : ℕ) : Pix :=
  let wi : ℤ := (w : ℤ)
  let hi : ℤ := (h : ℤ)
  let offx : ℤ := truncQ ((w : ℚ) * p * (dirx : ℚ))
  let offy : ℤ := truncQ ((h : ℚ) * p * (diry : ℚ))
  let i1x : ℤ := (x : ℤ) - offx
  let i1y : ℤ := (y : ℤ) - offy
  let i2x : ℤ := (x : ℤ) - offx + wi * dirx
  let i2y : ℤ := (y : ℤ) - offy + hi * diry
  if 0 ≤ i2x ∧ i2x < wi ∧ 0 ≤ i2y ∧ i2y < hi then img2 i2x.toNat i2y.toNat
  else if 0 ≤ i1x ∧ i1x < wi ∧ 0 ≤ i1y ∧ i1y < hi then img1 i1x.toNat i1y.toNat
  else blackPix

/-- `ImageManager::wipe_transition`, per pixel: a hard boundary at
`progress` (or `1 - progress`) along one axis switches img1 to img2.
Directions: 0 = Left, 1 = Right, 2 = Up, 3 = Down. -/
def wipePix (img1 img2 : Canvas) (w h : ℕ) (p : ℚ) (direction : ℕ)
    (x y : ℕ) : Pix :=
  let show2 : Bool :=
    if direction = 0 then decide ((x : ℚ) / (w : ℚ) < p)
    else if direction = 1 then decide (1 - p < (x : ℚ) / (w : ℚ))
    else if direction = 2 then decide (1 - p < (y : ℚ) / (h : ℚ))
    else if direction = 3 then decide ((y : ℚ) / (h : ℚ) < p)
    else false
  if show2 then img2 x y else img1 x y

/-- `ImageManager::circular_wipe_transition`, per pixel.  The source
compares `sqrt(dx² + dy²) < sqrt((w² + h²)/4) · progress`; both sides are
nonnegative when `0 ≤ progress`, so the comparison is equivalent to the
squared form used here (for `progress < 0` the source comparison is false
since distances are nonnegative, matching the `0 ≤ p` conjunct). -/
def circularPix (img1 img2 : Canvas) (w h : ℕ) (p : ℚ) (x y : ℕ) : Pix :=
  let dx : ℚ := (x : ℚ) - (w : ℚ) / 2
  let dy : ℚ := (y : ℚ) - (h : ℚ) / 2
  if 0 ≤ p ∧ dx ^ 2 + dy ^ 2 < ((w : ℚ) ^ 2 + (h : ℚ) ^ 2) / 4 * p ^ 2 then
    img2 x y
  else img1 x y

/-- `ImageManager::diagonal_wipe_transition`, per pixel: pixels with
`x + y < progress × (w + h)` take img2. -/
def diagonalPix (img1 img2 : Canvas) (w h : ℕ) (p : ℚ) (x y : ℕ) : Pix :=
  if (x : ℚ) + (y : ℚ) < ((w : ℚ) + (h : ℚ)) * p then img2 x y else img1 x y

/-- `ImageManager::pixelate_transition`, per pixel: the canvas is tiled by
blocks of side `(1 + (1-p)·15) as u32`; each block samples the pixel at its
top-left corner from img2 or img1 by a per-block Bernoulli draw.  For
`blockSize = 0` (progress beyond 16/15) the source's `step_by(0)` panics;
that case is marked by returning the img1 pixel and is excluded from every
theorem below. -/
def pixelatePix (o : Oracles) (img1 img2 : Canvas) (p : ℚ) (x y : ℕ) : Pix :=
  let bs : ℕ := (truncQ (1 + (1 - p) * 15)).toNat
  if bs = 0 then img1 x y
  else
    let bx : ℕ := x / bs * bs
    let by' : ℕ := y / bs * bs
    if o.randBlock (x / bs) (y / bs) < p then img2 bx by' else img1 bx by'

/-- `ImageManager::morph_transition`, per pixel: sinusoidal displacement
(amplitude `progress × 10%` of each extent) applied to img1's sample
coordinates, then a linear blend with img2 by `progress`. -/
def morphPix (o : Oracles) (img1 img2 : Canvas) (w h : ℕ) (p : ℚ)
    (x y : ℕ) : Pix :=
  let distortion : ℚ := p * (1/10)
  let waveX : ℚ := o.sinO ((y : ℚ) * (1/50) + p * (157/25)) * distortion * (w : ℚ)
  let waveY : ℚ := o.cosO ((x : ℚ) * (1/50) + p * (157/25)) * distortion * (h : ℚ)
  let srcX : ℤ := min (max (truncQ ((x : ℚ) + waveX)) 0) ((w : ℤ) - 1)
  let srcY : ℤ := min (max (truncQ ((y : ℚ) + waveY)) 0) ((h : ℤ) - 1)
  blendPixels p (img1 srcX.toNat srcY.toNat) (img2 x y)

/-- Length of `TransitionType::name()` for each kind, which fixes the
width of the diagnostic text overlay. -/
def nameLen : TransitionType → ℕ
  | .Fade => 4
  | .Dissolve => 8
  | .SlideLeft => 10
  | .SlideRight => 11
  | .SlideUp => 8
  | .SlideDown => 10
  | .WipeLeft => 9
  | .WipeRight => 10
  | .WipeUp => 7
  | .WipeDown => 9
  | .Morph => 5
  | .Bounce => 6
  | .Elastic => 7
  | .EaseIn => 7
  | .EaseOut => 8
  | .EaseInOut => 11
  | .Accelerated => 11
  | .CircularWipe => 13
  | .DiagonalWipe => 13
  | .Pixelate => 8

/-- Width of the overlay's background rectangle in
`ImageManager::add_transition_text`: with `char_size = 4`,
`text_width = len · (7·4 + 4)` and `padding = 8`, so
`bg_width = 32·len + 16`. -/
def bgW (k : TransitionType) : ℕ := 32 * nameLen k + 16

/-- Height of the overlay's background rectangle:
`text_height = 5·4` plus `2 · padding = 16`, so `bg_height = 36`. -/
def bgH : ℕ := 36

/-- The glyph layer of `draw_text`/`draw_simple_char` for a label of
`len` characters drawn at offset `(8, 8)` with `char_size = 4`:
pixel `(x, y)` is text-coloured when some character's bitmap block covers
it.  The 5x7 bitmaps themselves are the `pat` oracle. -/
def glyphOn (o : Oracles) (len x y : ℕ) : Bool :=
  (List.range len).any fun i =>
    (List.range 5).any fun row =>
      (List.range 7).any fun col =>
        o.pat i row col &&
          ((List.range 4).any fun dy =>
            (List.range 4).any fun dx =>
              decide (x = 8 + i * 32 + col * 4 + dx) &&
                decide (y = 8 + row * 4 + dy))

/-- `ImageManager::add_transition_text`, per pixel (for pixels inside the
canvas): the background rectangle is painted `Rgba([0,0,0,180])`, then the
label glyphs `Rgba([255,255,0,255])` on top; pixels outside the rectangle
are untouched. -/
def addTransitionText (o : Oracles) (k : TransitionType) (base : Canvas) :
    Canvas := fun x y =>
  if glyphOn o (nameLen k) x y then ⟨255, 255, 0, 255⟩
  else if x < bgW k ∧ y < bgH then ⟨0, 0, 0, 180⟩
  else base x y

/-- The stochastic kinds, whose per-frame output consumes the RNG. -/
def stochastic : TransitionType → Prop
  | .Dissolve => True
  | .Pixelate => True
  | _ => False

instance : DecidablePred stochastic := fun k => by
  cases k <;> simp only [stochastic] <;> infer_instance

/-- The per-kind compositing dispatch of
`ImageManager::create_transition_frame` (the match over the transition
type), applied to the already-eased progress `e`.  The `_` arm of the
source match, covering the easing-named kinds, is a simple blend by the
eased progress. -/
def basePix (o : Oracles) (k : TransitionType) (img1 img2 : Canvas)
    (w h : ℕ) (e : ℚ) : Canvas := fun x y =>
  match k with
  | .Fade => blendPixels e (img1 x y) (img2 x y)
  | .Dissolve => dissolvePix o img1 img2 e x y
  | .SlideLeft => slidePix img1 img2 w h e (-1) 0 x y
  | .SlideRight => slidePix img1 img2 w h e 1 0 x y
  | .SlideUp => slidePix img1 img2 w h e 0 (-1) x y
  | .SlideDown => slidePix img1 img2 w h e 0 1 x y
  | .WipeLeft => wipePix img1 img2 w h e 0 x y
  | .WipeRight => wipePix img1 img2 w h e 1 x y
  | .WipeUp => wipePix img1 img2 w h e 2 x y
  | .WipeDown => wipePix img1 img2 w h e 3 x y
  | .CircularWipe => circularPix img1 img2 w h e x y
  | .DiagonalWipe => diagonalPix img1 img2 w h e x y
  | .Pixelate => pixelatePix o img1 img2 e x y
  | .Morph => morphPix o img1 img2 w h e x y
  | _ => blendPixels e (img1 x y) (img2 x y)

/-- `ImageManager::create_transition_frame`, per pixel: apply the
kind-specific easing to the raw progress, dispatch on the kind, then
overlay the transition label. -/
def createTransitionFrame (o : Oracles) (k : TransitionType)
    (img1 img2 : Canvas) (w h : ℕ) (t : ℚ) : Canvas :=
  addTransitionText o k (basePix o k img1 img2 w h (applyEasing o t k))

/-- `ImageManager::play_transition` frame count:
`(transition_duration.as_millis() / 33) as usize` — integer division with
no minimum. -/
def frameCount (durationMs : ℕ) : ℕ := durationMs / 33

/-- `ImageManager::play_transition` per-frame pacing:
`transition_duration / frame_count as u32`.  `Duration` division by zero
panics in Rust; the panic case is `none`.  The value is the frame duration
in milliseconds (exact, as a rational). -/
def frameDurationMs (durationMs : ℕ) : Option ℚ :=
  if frameCount durationMs = 0 then none
  else some ((durationMs : ℚ) / (frameCount durationMs : ℚ))

/-- Raw per-frame progress in `ImageManager::play_transition`:
`i as f32 / (frame_count - 1) as f32` (f32 division; `0.0/0.0` at
`frame_count = 1` is NaN, modelled as `none`; `frame_count - 1` is the
saturating `usize` subtraction). -/
def rawProgress (i fc : ℕ) : Option ℚ := f32Div (i : ℚ) ((fc - 1 : ℕ) : ℚ)

/-- `ImageInfo` from mqtt_client.rs. -/
structure ImageInfo where
  id : String
  path : String
  order : ℕ
  url : Option String
  ext : Option String
  deriving Repr, DecidableEq

/-- `SlideshowState` from slideshow_controller.rs. -/
inductive SState where
  | Playing
  | Paused
  | Stopped
  deriving Repr, DecidableEq

/-- `SlideshowConfig` from mqtt_client.rs: a partial configuration update
(absent fields leave the configuration unchanged). -/
structure PartialConfig where
  transitionEffect : Option String
  displayDuration : Option ℕ
  transitionDuration : Option ℕ
  orientation : Option String
  deriving Repr, DecidableEq

/-- The mutable controller state of `SlideshowController` (the fields
behind its `RwLock`s), plus the presence flags of the two optional
collaborator clients. -/
structure CState where
  state : SState
  idx : ℕ
  images : List ImageInfo
  displayMs : ℕ
  transitionMs : ℕ
  orientation : String
  transitionEffect : String
  imageDir : String
  hasMqtt : Bool
  hasCouch : Bool
  deriving Repr, DecidableEq

/-- `SlideshowCommand` from mqtt_client.rs. -/
inductive Command where
  | Play
  | Pause
  | Next
  | Previous
  | UpdateImages (images : List ImageInfo)
  | UpdateConfig (config : PartialConfig)
  | Reboot
  | Shutdown
  deriving Repr, DecidableEq

/-- Path rewriting in `SlideshowController::update_images`: each entry's
path becomes `image_dir/<id>.<ext>` where the extension drops a leading
dot and defaults to "png"; the `url` field is cleared. -/
def rewriteImage (dir : String) (info : ImageInfo) : ImageInfo :=
  let origExt : String :=
    match info.ext with
    | some e => if e.startsWith "." then e.drop 1 else e
    | none => "png"
  { id := info.id, path := dir ++ "/" ++ info.id ++ "." ++ origExt,
    order := info.order, url := none, ext := info.ext }

/-- Insert an entry after all already-placed entries of smaller or equal
`order` (the insertion step of a stable sort). -/
def insertByOrder (a : ImageInfo) : List ImageInfo → List ImageInfo
  | [] => [a]
  | b :: t => if b.order ≤ a.order then b :: insertByOrder a t else a :: b :: t

/-- Stable sort by `order`, modelling `sort_by(|a, b| a.order.cmp(&b.order))`
(Rust's `sort_by` is stable; a left-to-right stable insertion sort computes
the same list). -/
def sortByOrder (l : List ImageInfo) : List ImageInfo :=
  l.foldl (fun acc a => insertByOrder a acc) []

/-- `SlideshowController::update_images` (state part): the playlist is
replaced by the rewritten, order-sorted new list; the index is reset to 0
only when it is out of bounds of a NON-empty new list; the state becomes
Stopped on an empty list and Playing otherwise.  (The attachment-download
step is best-effort in the source — failures `continue` — and touches no
controller state.) -/
def updateImages (l : List ImageInfo) (s : CState) : CState :=
  let imgs := sortByOrder (l.map (rewriteImage s.imageDir))
  let idx1 := if imgs.length ≤ s.idx ∧ ¬ imgs.isEmpty then 0 else s.idx
  let st := if imgs.isEmpty then SState.Stopped else SState.Playing
  { s with images := imgs, idx := idx1, state := st }

/-- `SlideshowController::update_config`: apply only the present fields. -/
def updateConfig (c : PartialConfig) (s : CState) : CState :=
  { s with
    displayMs := c.displayDuration.getD s.displayMs,
    transitionMs := c.transitionDuration.getD s.transitionMs,
    orientation := c.orientation.getD s.orientation,
    transitionEffect := c.transitionEffect.getD s.transitionEffect }

/-- `SlideshowController::advance_to_next_image`: advance modulo playlist
length, no-op on an empty playlist. -/
def advanceNext (s : CState) : CState :=
  if s.images.isEmpty then s
  else { s with idx := (s.idx + 1) % s.images.length }

/-- `SlideshowController::advance_to_previous_image`: retreat with wrap,
no-op on an empty playlist. -/
def advancePrev (s : CState) : CState :=
  if s.images.isEmpty then s
  else { s with idx := if s.idx = 0 then s.images.length - 1 else s.idx - 1 }

/-- The status payload `TvStatus` (timestamp elided: it is a wall-clock
string with no arithmetic content). -/
structure TvStatus where
  status : String
  currentImage : Option String
  totalImages : ℕ
  currentIndex : ℕ
  uptime : ℕ
  deriving Repr, DecidableEq

/-- The lowercase status string of `send_status_update`. -/
def stateStr : SState → String
  | .Playing => "playing"
  | .Paused => "paused"
  | .Stopped => "stopped"

/-- The status payload built by `SlideshowController::send_status_update`:
note the checked `images.get(current_index)` for the current image. -/
def mkStatus (s : CState) (uptime : ℕ) : TvStatus :=
  { status := stateStr s.state,
    currentImage := (s.images.get? s.idx).map (·.id),
    totalImages := s.images.length,
    currentIndex := s.idx,
    uptime := uptime }

/-- Outward emissions of the controller: the status channel send, the MQTT
status publish, the CouchDB status update, and the MQTT current-image
publish used by the auto-advance path. -/
inductive Emission where
  | channelStatus (st : TvStatus)
  | mqttStatus (st : TvStatus)
  | couchStatus (status : String) (currentImage : Option String)
  | mqttCurrentImage (id : String)
  deriving Repr, DecidableEq

/-- `SlideshowController::send_status_update`: one channel send, plus an
MQTT publish and a CouchDB update when those clients are present.  Each
emission is best-effort in the source (failures are only logged), so the
emissions are recorded as attempts and the function cannot fail. -/
def sendStatusUpdate (s : CState) (uptime : ℕ) : List Emission :=
  let st := mkStatus s uptime
  [Emission.channelStatus st]
    ++ (if s.hasMqtt then [Emission.mqttStatus st] else [])
    ++ (if s.hasCouch then [Emission.couchStatus st.status st.currentImage] else [])

/-- `SlideshowController::handle_command`: dispatch the command, then send
exactly one status update.  The only failure path before the status update
is the `Reboot` process spawn (`rebootOk` oracle); all other arms are
infallible (`update_images` only `continue`s on download errors). -/
def applyCommand (rebootOk : Bool) (uptime : ℕ) (c : Command) (s : CState) :
    Except Unit (CState × List Emission) :=
  let step : Except Unit CState :=
    match c with
    | .Play => .ok { s with state := .Playing }
    | .Pause => .ok { s with state := .Paused }
    | .Next => .ok (advanceNext s)
    | .Previous => .ok (advancePrev s)
    | .UpdateImages l => .ok (updateImages l s)
    | .UpdateConfig cfg => .ok (updateConfig cfg s)
    | .Reboot => if rebootOk then .ok s else .error ()
    | .Shutdown => .ok { s with state := .Stopped }
  match step with
  | .error e => .error e
  | .ok s1 => .ok (s1, sendStatusUpdate s1 uptime)

/-- `SlideshowController::should_advance_automatically`: due iff Playing
and the elapsed time since the last change reached the display duration. -/
def shouldAdvanceAutomatically (s : CState) (elapsedMs : ℕ) : Bool :=
  decide (s.state = SState.Playing) && decide (s.displayMs ≤ elapsedMs)

/-- `SlideshowController::publish_current_image_to_mqtt`: a single MQTT
current-image publish, only when the MQTT client is present and the index
is in bounds (checked `get`). -/
def publishCurrentImage (s : CState) : List Emission :=
  if s.hasMqtt then
    match s.images.get? s.idx with
    | some img => [Emission.mqttCurrentImage img.id]
    | none => []
  else []

/-- The auto-advance arm of `run_slideshow_loop` (main.rs): when an advance
is due, advance the index and publish the (new) current image to MQTT —
and nothing else. -/
def autoAdvanceTick (s : CState) (elapsedMs : ℕ) : CState × List Emission :=
  if shouldAdvanceAutomatically s elapsedMs then
    let s1 := advanceNext s
    (s1, publishCurrentImage s1)
  else (s, [])

/-- Count of full status sends over the command channel. -/
def countChannelStatus (es : List Emission) : ℕ :=
  es.countP fun e => match e with | .channelStatus _ => true | _ => false

/-- Count of full status publishes to MQTT. -/
def countMqttStatus (es : List Emission) : ℕ :=
  es.countP fun e => match e with | .mqttStatus _ => true | _ => false

/-- Count of CouchDB status updates. -/
def countCouchStatus (es : List Emission) : ℕ :=
  es.countP fun e => match e with | .couchStatus _ _ => true | _ => false

/-- Count of MQTT current-image publishes. -/
def countMqttCurrentImage (es : List Emission) : ℕ :=
  es.countP fun e => match e with | .mqttCurrentImage _ => true | _ => false

/-- `SlideshowController::get_current_image_path`: checked
`images.get(current_index)`. -/
def getCurrentImagePath (s : CState) : Option String :=
  (s.images.get? s.idx).map (·.path)

/-- The JSON body of the HTTP `/api/images` endpoint (http_server.rs
`get_image_list`): note the checked `images.get(current_index)`. -/
structure ImageListResponse where
  count : ℕ
  currentIndex : ℕ
  currentImage : Option String
  images : List (String × String × ℕ × Option String)
  deriving Repr, DecidableEq

/-- http_server.rs `get_image_list`. -/
def getImageList (s : CState) : ImageListResponse :=
  { count := s.images.length,
    currentIndex := s.idx,
    currentImage := (s.images.get? s.idx).map (·.id),
    images := s.images.map fun i => (i.id, i.path, i.order, i.ext) }

/-- The `Framebuffer` sink state: exactly one of the memory mapping, the
direct-write file handle, or the file fallback is active (contents are the
device/file bytes). -/
structure FbState where
  mmapContents : Option (List ℕ)
  hasFile : Bool
  fileContents : List ℕ
  hasFallback : Bool
  fallbackContents : List ℕ
  maxBufferSize : ℕ
  width : ℕ
  height : ℕ

/-- Errors of `Framebuffer::display_buffer`: the oversized-buffer
`InvalidInput` rejection, a chunk-write failure carrying the byte offset
reached, and a flush failure. -/
inductive FbError where
  | oversize (len max : ℕ)
  | chunkWrite (offset : ℕ)
  | flushFail
  deriving Repr, DecidableEq

/-- `Framebuffer::display_buffer`.  The oversize check comes first and
rejects before any write.  The mmap path copies `min(len, mmap.len())`
bytes then flushes (a zero-length copy short-circuits to Ok); the
direct-write path seeks to 0 and writes 4096-byte chunks, aborting with
the byte offset reached when a chunk write fails (`chunkOk` oracle), then
flushes (`flushOk` oracle); the fallback path appends and flushes.  The
result pairs the post-call sink state with the error, so partial chunk
writes are observable. -/
def displayBuffer (chunkOk : ℕ → Bool) (flushOk : Bool) (fb : FbState)
    (buf : List ℕ) : FbState × Option FbError :=
  if fb.maxBufferSize < buf.length then
    (fb, some (FbError.oversize buf.length fb.maxBufferSize))
  else
    match fb.mmapContents with
    | some m =>
        let copyLen := min buf.length m.length
        if copyLen = 0 then (fb, none)
        else
          let fb1 := { fb with mmapContents := some (buf.take copyLen ++ m.drop copyLen) }
          if flushOk then (fb1, none) else (fb1, some FbError.flushFail)
    | none =>
        if fb.hasFile then
          let n := (buf.length + 4095) / 4096
          match (List.range n).find? (fun k => ! chunkOk k) with
          | some k =>
              ({ fb with fileContents := buf.take (4096 * k) ++ fb.fileContents.drop (4096 * k) },
               some (FbError.chunkWrite (4096 * k)))
          | none =>
              let fb1 := { fb with fileContents := buf ++ fb.fileContents.drop buf.length }
              if flushOk then (fb1, none) else (fb1, some FbError.flushFail)
        else if fb.hasFallback then
          let fb1 := { fb with fallbackContents := fb.fallbackContents ++ buf }
          if flushOk then (fb1, none) else (fb1, some FbError.flushFail)
        else (fb, none)

/-- The B,G,R,A byte quad of one pixel pushed by
`Framebuffer::image_to_bgra_buffer` (a channel swap from R,G,B,A). -/
def bgraOfPix (p : Pix) : List ℕ := [p.b, p.g, p.r, p.a]

/-- The source pixel used by `image_to_bgra_buffer` at canvas coordinate
`(x, y)`: the image pixel inside the image bounds, opaque black outside. -/
def srcPix (imgW imgH : ℕ) (img : Canvas) (x y : ℕ) : Pix :=
  if x < imgW ∧ y < imgH then img x y else blackPix

/-- `Framebuffer::image_to_bgra_buffer`: scanline order (y outer,
x inner), 4 bytes per pixel in B,G,R,A order, stopping after
`safe_pixels = min(width·height·4, max_buffer_size) / 4` pixels (the
`break` guards fire before a quad is pushed, so quads are never split). -/
def imageToBgraBuffer (fb : FbState) (imgW imgH : ℕ) (img : Canvas) :
    List ℕ :=
  let safeSize := min (fb.width * fb.height * 4) fb.maxBufferSize
  let safePixels := safeSize / 4
  (((List.range fb.height).flatMap fun y =>
      (List.range fb.width).flatMap fun x =>
        bgraOfPix (srcPix imgW imgH img x y))).take (4 * safePixels)

/-- A canvas together with its live dimensions (an `RgbaImage`). -/
structure SizedCanvas where
  w : ℕ
  h : ℕ
  pix : Canvas

/-- The uniform scale factor of `scale_image_to_fit`:
`min(target_w / src_w, target_h / src_h)`. -/
def scaleFactor (ow oh tw th : ℕ) : ℚ :=
  min ((tw : ℚ) / (ow : ℚ)) ((th : ℚ) / (oh : ℚ))

/-- The scaled width `(original_width * scale) as u32`. -/
def scaledDim (o target other otherTarget : ℕ) : ℕ :=
  (truncQ ((o : ℚ) * scaleFactor o other target otherTarget)).toNat

/-- The scaled content width `(original_width * scale) as u32`. -/
def scaledW (orig : SizedCanvas) (tw th : ℕ) : ℕ :=
  (truncQ ((orig.w : ℚ) * scaleFactor orig.w orig.h tw th)).toNat

/-- The scaled content height `(original_height * scale) as u32`. -/
def scaledH (orig : SizedCanvas) (tw th : ℕ) : ℕ :=
  (truncQ ((orig.h : ℚ) * scaleFactor orig.w orig.h tw th)).toNat

/-- The horizontal letterbox offset `(width - scaled_width) / 2`. -/
def offsetX (orig : SizedCanvas) (tw th : ℕ) : ℕ :=
  (tw - scaledW orig tw th) / 2

/-- The vertical letterbox offset `(height - scaled_height) / 2`. -/
def offsetY (orig : SizedCanvas) (tw th : ℕ) : ℕ :=
  (th - scaledH orig tw th) / 2

/-- `scale_image_to_fit` (main.rs): resample the source to
`(scaledW, scaledH)` (the Lanczos3 resampler is the `resizeO` oracle),
allocate an opaque-black target-sized canvas, and copy the scaled image at
the centred integer offset `(target - scaled) / 2` per axis.  Pixels
outside the copied rectangle keep the background. -/
def scaleImageToFit (resizeO : Canvas → ℕ → ℕ → Canvas)
    (orig : SizedCanvas) (tw th : ℕ) : SizedCanvas :=
  let sw := scaledW orig tw th
  let sh := scaledH orig tw th
  let scaled := resizeO orig.pix sw sh
  let xo := offsetX orig tw th
  let yo := offsetY orig tw th
  { w := tw, h := th,
    pix := fun x y =>
      if xo ≤ x ∧ x < xo + sw ∧ yo ≤ y ∧ y < yo + sh then
        scaled (x - xo) (y - yo)
      else blackPix }

/-- Oracle instance with all-zero numeric answers and an empty font, used
for concrete evaluations (the claims below are oracle-independent at the
evaluated pixels). -/
def zeroOracles : Oracles :=
  ⟨fun _ => 0, fun _ => 0, fun _ => 0, fun _ _ => 0, fun _ _ => 0,
   fun _ _ _ => false⟩

/-- A constant source canvas used in concrete evaluations. -/
def cFrom : Canvas := fun _ _ => ⟨10, 20, 30, 255⟩

/-- A constant target canvas used in concrete evaluations. -/
def cTo : Canvas := fun _ _ => ⟨200, 100, 50, 255⟩

/-- Sample playlist entry A. -/
def imgA : ImageInfo := ⟨"a", "d/a.png", 0, none, none⟩

/-- Sample playlist entry B. -/
def imgB : ImageInfo := ⟨"b", "d/b.png", 1, none, none⟩

/-- Sample playlist entry C. -/
def imgC : ImageInfo := ⟨"c", "d/c.png", 2, none, none⟩

/-- A paused controller state with a non-empty playlist. -/
def sPaused : CState :=
  ⟨SState.Paused, 0, [imgA], 5000, 1500, "landscape", "random", "d",
   true, true⟩

/-- The end-to-end scenario state: playlist [A, B, C], Playing, index 0,
display duration 5 s, both collaborator clients present. -/
def sScenario : CState :=
  ⟨SState.Playing, 0, [imgA, imgB, imgC], 5000, 1500, "landscape",
   "random", "d", true, true⟩

/-- A controller state whose index is out of bounds (playlist shrunk to
empty by `UpdateImages([])`, which leaves the index untouched). -/
def sOutOfBounds : CState :=
  ⟨SState.Stopped, 2, [], 5000, 1500, "landscape", "random", "d",
   true, true⟩

/-- A playing controller state with 3 images at index 2. -/
def sAtTwo : CState :=
  ⟨SState.Playing, 2, [imgA, imgB, imgC], 5000, 1500, "landscape",
   "random", "d", true, true⟩

/-- A small framebuffer sink state in file-fallback mode. -/
def fbSmall : FbState :=
  { mmapContents := none, hasFile := false, fileContents := [],
    hasFallback := true, fallbackContents := [], maxBufferSize := 8,
    width := 2, height := 2 }

/-- Commands that touch neither the play/pause/stop state nor the
playlist-driven automatic edges. -/
def stateNeutral : Command → Prop
  | .Next => True
  | .Previous => True
  | .UpdateConfig _ => True
  | .Reboot => True
  | _ => False

/-! ## Theorems -/

/-- C1: the claim states frame count = `duration_ms / 33` with a minimum
of 1 and a well-defined pacing division.  The code has no minimum: for any
transition duration under 33 ms (here 20 ms) the frame count is 0, the
frame sequence is empty, and the pacing computation
`transition_duration / frame_count` divides by zero (a Rust panic,
modelled as `none`).  The code contradicts the specified intent. -/
theorem c1_small_duration_zero_frames (ms : ℕ) (hms : ms < 33) :
    frameCount ms = 0 ∧ frameDurationMs ms = none ∧
      List.range (frameCount ms) = [] := by
  have h0 : frameCount ms = 0 := Nat.div_eq_of_lt hms
  refine ⟨h0, ?_, by rw [h0]; rfl⟩
  rw [frameDurationMs, if_pos h0]

/-- Witness for C1 at the concrete failing input 20 ms. -/
theorem c1_witness :
    frameCount 20 = 0 ∧ frameDurationMs 20 = none ∧
      List.range (frameCount 20) = [] :=
  c1_small_duration_zero_frames 20 (by decide)

/-- C2 counterexample: at `frame_count = 1` the single frame's raw
progress is `0.0 / 0.0`, which is NaN (`none` in the model), not the
claimed progress 0. -/
theorem c2_counterexample :
    rawProgress 0 1 = none ∧ rawProgress 0 1 ≠ some 0 := by
  constructor
  · rfl
  · intro h
    exact Option.noConfusion h

/-- C2 (amended): for `frame_count ≥ 2`, frame `i`'s raw progress is
`i / (frame_count - 1)` and lies in [0, 1]; for `frame_count = 1` the
computed value is the undefined `0/0` (NaN), not 0. -/
theorem c2_raw_progress (fc i : ℕ) (hfc : 2 ≤ fc) (hi : i < fc) :
    rawProgress i fc = some ((i : ℚ) / ((fc - 1 : ℕ) : ℚ)) ∧
      0 ≤ (i : ℚ) / ((fc - 1 : ℕ) : ℚ) ∧
      (i : ℚ) / ((fc - 1 : ℕ) : ℚ) ≤ 1 := by
  have hpos : 0 < fc - 1 := by omega
  have hne : ((fc - 1 : ℕ) : ℚ) ≠ 0 := by
    exact_mod_cast Nat.pos_iff_ne_zero.mp hpos
  have hposQ : (0 : ℚ) < ((fc - 1 : ℕ) : ℚ) := by exact_mod_cast hpos
  refine ⟨by rw [rawProgress, f32Div, if_neg hne], ?_, ?_⟩
  · exact div_nonneg (by positivity) (le_of_lt hposQ)
  · rw [div_le_one hposQ]
    exact_mod_cast (by omega : i ≤ fc - 1)

/-- Witness for C2 at `frame_count = 3`, frame 1. -/
theorem c2_witness :
    rawProgress 1 3 = some ((1 : ℚ) / ((3 - 1 : ℕ) : ℚ)) ∧
      0 ≤ (1 : ℚ) / ((3 - 1 : ℕ) : ℚ) ∧
      (1 : ℚ) / ((3 - 1 : ℕ) : ℚ) ≤ 1 :=
  c2_raw_progress 3 1 (by decide) (by decide)

/-- C10: every read of the current image — the controller's current-path
lookup, the status payload, and the HTTP image-list endpoint — uses a
checked `images.get(current_index)`, so an out-of-bounds index yields
`None` everywhere instead of a panic. -/
theorem c10_checked_get (s : CState) (uptime : ℕ)
    (h : s.images.length ≤ s.idx) :
    getCurrentImagePath s = none ∧ (mkStatus s uptime).currentImage = none ∧
      (getImageList s).currentImage = none := by
  have hg : s.images.get? s.idx = none := List.get?_eq_none.mpr h
  refine ⟨?_, ?_, ?_⟩
  · rw [getCurrentImagePath, hg]; rfl
  · show (s.images.get? s.idx).map (·.id) = none
    rw [hg]; rfl
  · show (s.images.get? s.idx).map (·.id) = none
    rw [hg]; rfl

/-- Witness for C10 on the out-of-bounds state left by an empty
`UpdateImages`. -/
theorem c10_witness :
    getCurrentImagePath sOutOfBounds = none ∧
      (mkStatus sOutOfBounds 7).currentImage = none ∧
      (getImageList sOutOfBounds).currentImage = none :=
  c10_checked_get sOutOfBounds 7 (by decide)

/-- C9: a buffer longer than the device's maximum size is rejected with
an error before anything is written (the sink state is returned
unchanged); for a buffer within the limit, no oversize error can be
raised on any path (other failures are chunk-write or flush errors). -/
theorem c9_push_oversize (chunkOk : ℕ → Bool) (flushOk : Bool)
    (fb : FbState) (buf : List ℕ) :
    (fb.maxBufferSize < buf.length →
      displayBuffer chunkOk flushOk fb buf =
        (fb, some (FbError.oversize buf.length fb.maxBufferSize))) ∧
    (buf.length ≤ fb.maxBufferSize →
      ∀ l m, (displayBuffer chunkOk flushOk fb buf).2 ≠
        some (FbError.oversize l m)) := by
  constructor
  · intro h
    rw [displayBuffer, if_pos h]
  · intro h l m
    rw [displayBuffer, if_neg (not_lt.mpr h)]
    dsimp only
    repeat' split
    all_goals simp

/-- Witness for C9: the oversize arm on a 3-byte buffer against an 8-byte
limit sink never fires, and an 9-byte buffer is rejected unchanged. -/
theorem c9_witness :
    displayBuffer (fun _ => true) true fbSmall [0, 1, 2, 3, 4, 5, 6, 7, 8] =
      (fbSmall, some (FbError.oversize 9 8)) ∧
    (∀ l m, (displayBuffer (fun _ => true) true fbSmall [0, 1, 2]).2 ≠
      some (FbError.oversize l m)) :=
  ⟨(c9_push_oversize (fun _ => true) true fbSmall
      [0, 1, 2, 3, 4, 5, 6, 7, 8]).1 (by decide),
   (c9_push_oversize (fun _ => true) true fbSmall [0, 1, 2]).2 (by decide)⟩

/-- Inserting one entry grows the list by one. -/
theorem length_insertByOrder (a : ImageInfo) (l : List ImageInfo) :
    (insertByOrder a l).length = l.length + 1 := by
  induction l with
  | nil => rfl
  | cons b t ih =>
      rw [insertByOrder]
      split
      · simp [ih]
      · simp

/-- The stable sort preserves length. -/
theorem length_sortByOrder (l : List ImageInfo) :
    (sortByOrder l).length = l.length := by
  suffices h : ∀ acc : List ImageInfo,
      (l.foldl (fun acc a => insertByOrder a acc) acc).length =
        acc.length + l.length by
    simpa using h []
  induction l with
  | nil => intro acc; simp
  | cons b t ih =>
      intro acc
      rw [List.foldl_cons, ih (insertByOrder b acc), length_insertByOrder]
      simp only [List.length_cons]
      omega

/-- C5 counterexample: replacing a 3-item playlist (index 2) by the empty
list leaves the index at 2 — the claim's clamp-to-0 on "shrinking to
empty" does not happen (the code clamps only for non-empty new lists). -/
theorem c5_counterexample :
    (updateImages [] sAtTwo).images = [] ∧
      (updateImages [] sAtTwo).idx = 2 ∧ (updateImages [] sAtTwo).idx ≠ 0 := by
  refine ⟨rfl, rfl, by decide⟩

/-- C5 (amended): `UpdateImages` replaces the playlist wholesale (with
per-entry local-path rewriting and a stable sort by `order`); the index is
clamped to 0 exactly when the new list is non-empty and no longer than the
old index, and is left unchanged (possibly out of bounds) when the new
list is empty; the new state is Stopped on an empty list and Playing
otherwise — unconditionally, not only when previously Stopped. -/
theorem c5_update_images (l : List ImageInfo) (s : CState) :
    (updateImages l s).images = sortByOrder (l.map (rewriteImage s.imageDir)) ∧
    (updateImages l s).images.length = l.length ∧
    (l = [] → (updateImages l s).idx = s.idx) ∧
    (l ≠ [] → l.length ≤ s.idx → (updateImages l s).idx = 0) ∧
    (s.idx < l.length → (updateImages l s).idx = s.idx) ∧
    (updateImages l s).state =
      (if l = [] then SState.Stopped else SState.Playing) := by
  have hlen : (sortByOrder (l.map (rewriteImage s.imageDir))).length = l.length := by
    rw [length_sortByOrder, List.length_map]
  have hemp : (sortByOrder (l.map (rewriteImage s.imageDir))).isEmpty = l.isEmpty := by
    apply Bool.coe_iff_coe.mp
    rw [List.isEmpty_iff_length_eq_zero, List.isEmpty_iff_length_eq_zero, hlen]
  refine ⟨rfl, hlen, ?_, ?_, ?_, ?_⟩
  · intro hl
    show (if _ ∧ _ then 0 else s.idx) = s.idx
    rw [if_neg]
    rintro ⟨-, hne⟩
    rw [hemp] at hne
    simp [hl] at hne
  · intro hl hle
    show (if _ ∧ _ then 0 else s.idx) = 0
    rw [if_pos]
    constructor
    · omega
    · rw [hemp]
      simpa using hl
  · intro hlt
    show (if _ ∧ _ then 0 else s.idx) = s.idx
    rw [if_neg]
    rintro ⟨hle, -⟩
    omega
  · show (if (sortByOrder _).isEmpty then SState.Stopped else SState.Playing) = _
    rw [hemp]
    rcases l with _ | ⟨a, t⟩ <;> simp

/-- Witness for C5: the clamp fires on a 1-entry update of a state at
index 2. -/
theorem c5_witness : (updateImages [imgA] sAtTwo).idx = 0 :=
  (c5_update_images [imgA] sAtTwo).2.2.2.1 (by decide) (by decide)

/-- C4 counterexample: `UpdateImages` with a non-empty list while Paused
(with an already non-empty playlist) does NOT leave the state Paused —
the code re-enters Playing on every non-empty update. -/
theorem c4_counterexample :
    (applyCommand true 0 (Command.UpdateImages [imgB]) sPaused).toOption.map
        (fun r => r.1.state) = some SState.Playing ∧
      SState.Playing ≠ SState.Paused :=
  ⟨rfl, by decide⟩

/-- C4 (amended): per command application, Paused is entered only by an
explicit Pause (state-neutral commands preserve it); Playing is entered
only by an explicit Play, by an `UpdateImages` whose resulting playlist is
non-empty (regardless of the prior state — in particular a non-empty
update while Paused re-enters Playing), or preserved through state-neutral
commands. -/
theorem c4_state_entry (rebootOk : Bool) (uptime : ℕ) (c : Command)
    (s s1 : CState) (es : List Emission)
    (h : applyCommand rebootOk uptime c s = .ok (s1, es)) :
    (s1.state = SState.Paused →
      c = Command.Pause ∨ (s.state = SState.Paused ∧ stateNeutral c)) ∧
    (s1.state = SState.Playing →
      c = Command.Play ∨
        (∃ l, c = Command.UpdateImages l ∧ s1.images ≠ []) ∨
        (s.state = SState.Playing ∧ stateNeutral c)) := by
  cases c with
  | Play =>
      simp only [applyCommand, Except.ok.injEq, Prod.mk.injEq] at h
      obtain ⟨h1, -⟩ := h
      subst h1
      exact ⟨fun hp => by simp at hp, fun _ => Or.inl rfl⟩
  | Pause =>
      simp only [applyCommand, Except.ok.injEq, Prod.mk.injEq] at h
      obtain ⟨h1, -⟩ := h
      subst h1
      exact ⟨fun _ => Or.inl rfl, fun hp => by simp at hp⟩
  | Next =>
      simp only [applyCommand, Except.ok.injEq, Prod.mk.injEq] at h
      obtain ⟨h1, -⟩ := h
      subst h1
      have hst : (advanceNext s).state = s.state := by
        rw [advanceNext]; split <;> rfl
      rw [hst]
      exact ⟨fun hp => Or.inr ⟨hp, trivial⟩,
             fun hp => Or.inr (Or.inr ⟨hp, trivial⟩)⟩
  | Previous =>
      simp only [applyCommand, Except.ok.injEq, Prod.mk.injEq] at h
      obtain ⟨h1, -⟩ := h
      subst h1
      have hst : (advancePrev s).state = s.state := by
        rw [advancePrev]; split <;> rfl
      rw [hst]
      exact ⟨fun hp => Or.inr ⟨hp, trivial⟩,
             fun hp => Or.inr (Or.inr ⟨hp, trivial⟩)⟩
  | UpdateImages l =>
      simp only [applyCommand, Except.ok.injEq, Prod.mk.injEq] at h
      obtain ⟨h1, -⟩ := h
      subst h1
      have hs : (updateImages l s).state =
          (if (sortByOrder (l.map (rewriteImage s.imageDir))).isEmpty then
            SState.Stopped else SState.Playing) := rfl
      have hi : (updateImages l s).images =
          sortByOrder (l.map (rewriteImage s.imageDir)) := rfl
      constructor
      · intro hp
        rw [hs] at hp
        split at hp <;> exact absurd hp (by decide)
      · intro hp
        refine Or.inr (Or.inl ⟨l, rfl, ?_⟩)
        rw [hi]
        intro hnil
        rw [hs, hnil] at hp
        simp at hp
  | UpdateConfig cfg =>
      simp only [applyCommand, Except.ok.injEq, Prod.mk.injEq] at h
      obtain ⟨h1, -⟩ := h
      subst h1
      exact ⟨fun hp => Or.inr ⟨hp, trivial⟩,
             fun hp => Or.inr (Or.inr ⟨hp, trivial⟩)⟩
  | Reboot =>
      cases rebootOk with
      | false => simp [applyCommand] at h
      | true =>
          simp only [applyCommand, Except.ok.injEq, Prod.mk.injEq, if_true] at h
          obtain ⟨h1, -⟩ := h
          subst h1
          exact ⟨fun hp => Or.inr ⟨hp, trivial⟩,
                 fun hp => Or.inr (Or.inr ⟨hp, trivial⟩)⟩
  | Shutdown =>
      simp only [applyCommand, Except.ok.injEq, Prod.mk.injEq] at h
      obtain ⟨h1, -⟩ := h
      subst h1
      exact ⟨fun hp => by simp at hp, fun hp => by simp at hp⟩

/-- Witness for C4: an explicit Pause on the scenario state. -/
theorem c4_witness :
    (({ sScenario with state := SState.Paused } : CState).state = SState.Paused →
      Command.Pause = Command.Pause ∨
        (sScenario.state = SState.Paused ∧ stateNeutral Command.Pause)) ∧
    (({ sScenario with state := SState.Paused } : CState).state = SState.Playing →
      Command.Pause = Command.Play ∨
        (∃ l, Command.Pause = Command.UpdateImages l ∧
          ({ sScenario with state := SState.Paused } : CState).images ≠ []) ∨
        (sScenario.state = SState.Playing ∧ stateNeutral Command.Pause)) :=
  c4_state_entry true 0 Command.Pause sScenario
    { sScenario with state := SState.Paused }
    (sendStatusUpdate { sScenario with state := SState.Paused } 0) rfl

/-- The emissions of one `send_status_update`: exactly one channel send,
one MQTT status publish when the client is present, one CouchDB update
when that client is present, and no current-image publish. -/
theorem counts_sendStatusUpdate (s : CState) (uptime : ℕ) :
    countChannelStatus (sendStatusUpdate s uptime) = 1 ∧
    countMqttStatus (sendStatusUpdate s uptime) = (if s.hasMqtt then 1 else 0) ∧
    countCouchStatus (sendStatusUpdate s uptime) = (if s.hasCouch then 1 else 0) ∧
    countMqttCurrentImage (sendStatusUpdate s uptime) = 0 := by
  unfold sendStatusUpdate countChannelStatus countMqttStatus
    countCouchStatus countMqttCurrentImage
  by_cases h1 : s.hasMqtt <;> by_cases h2 : s.hasCouch <;>
    simp [h1, h2, List.countP_append, List.countP_cons]

/-- In every successful command application the emitted list is exactly
one status update computed on the post-command state. -/
theorem applyCommand_emits (rebootOk : Bool) (uptime : ℕ) (c : Command)
    (s s1 : CState) (es : List Emission)
    (h : applyCommand rebootOk uptime c s = .ok (s1, es)) :
    es = sendStatusUpdate s1 uptime := by
  cases c with
  | Reboot =>
      cases rebootOk with
      | false => simp [applyCommand] at h
      | true =>
          simp only [applyCommand, Except.ok.injEq, Prod.mk.injEq, if_true] at h
          obtain ⟨h1, h2⟩ := h
          rw [← h1, h2]
  | Play =>
      simp only [applyCommand, Except.ok.injEq, Prod.mk.injEq] at h
      obtain ⟨h1, h2⟩ := h
      rw [← h1, h2]
  | Pause =>
      simp only [applyCommand, Except.ok.injEq, Prod.mk.injEq] at h
      obtain ⟨h1, h2⟩ := h
      rw [← h1, h2]
  | Next =>
      simp only [applyCommand, Except.ok.injEq, Prod.mk.injEq] at h
      obtain ⟨h1, h2⟩ := h
      rw [← h1, h2]
  | Previous =>
      simp only [applyCommand, Except.ok.injEq, Prod.mk.injEq] at h
      obtain ⟨h1, h2⟩ := h
      rw [← h1, h2]
  | UpdateImages l =>
      simp only [applyCommand, Except.ok.injEq, Prod.mk.injEq] at h
      obtain ⟨h1, h2⟩ := h
      rw [← h1, h2]
  | UpdateConfig cfg =>
      simp only [applyCommand, Except.ok.injEq, Prod.mk.injEq] at h
      obtain ⟨h1, h2⟩ := h
      rw [← h1, h2]
  | Shutdown =>
      simp only [applyCommand, Except.ok.injEq, Prod.mk.injEq] at h
      obtain ⟨h1, h2⟩ := h
      rw [← h1, h2]

/-- C6 counterexample (the auto-advance half of the claim): in the
end-to-end scenario — playlist [A,B,C], Playing, index 0, display
duration 5 s — after 5 s the index does become 1, but the observed
emission is a single MQTT current-image publish of B: there is NO full
status emission and NO document-store update, contradicting the claimed
one-emission-to-both-collaborators per auto-advance. -/
theorem c6_counterexample :
    (autoAdvanceTick sScenario 5000).1.idx = 1 ∧
    (autoAdvanceTick sScenario 5000).2 = [Emission.mqttCurrentImage "b"] ∧
    countChannelStatus (autoAdvanceTick sScenario 5000).2 = 0 ∧
    countMqttStatus (autoAdvanceTick sScenario 5000).2 = 0 ∧
    countCouchStatus (autoAdvanceTick sScenario 5000).2 = 0 :=
  ⟨rfl, rfl, rfl, rfl, rfl⟩

/-- C6 (amended): every successfully applied command emits exactly one
full status update — one channel send, plus one MQTT publish and one
CouchDB update when those clients are present (each best-effort; failures
cannot affect the command result, which carries no emission outcome).
Every auto-advance tick emits NO full status update at all: at most one
MQTT current-image publish, produced exactly when an advance is due. -/
theorem c6_status_emissions :
    (∀ (rebootOk : Bool) (uptime : ℕ) (c : Command) (s s1 : CState)
        (es : List Emission),
      applyCommand rebootOk uptime c s = .ok (s1, es) →
        countChannelStatus es = 1 ∧
        countMqttStatus es = (if s1.hasMqtt then 1 else 0) ∧
        countCouchStatus es = (if s1.hasCouch then 1 else 0)) ∧
    (∀ (s : CState) (elapsedMs : ℕ),
      countChannelStatus (autoAdvanceTick s elapsedMs).2 = 0 ∧
      countMqttStatus (autoAdvanceTick s elapsedMs).2 = 0 ∧
      countCouchStatus (autoAdvanceTick s elapsedMs).2 = 0 ∧
      countMqttCurrentImage (autoAdvanceTick s elapsedMs).2 ≤ 1 ∧
      (shouldAdvanceAutomatically s elapsedMs = true →
        (autoAdvanceTick s elapsedMs).1 = advanceNext s ∧
        (autoAdvanceTick s elapsedMs).2 = publishCurrentImage (advanceNext s))) := by
  constructor
  · intro rebootOk uptime c s s1 es h
    have he := applyCommand_emits rebootOk uptime c s s1 es h
    subst he
    obtain ⟨k1, k2, k3, -⟩ := counts_sendStatusUpdate s1 uptime
    exact ⟨k1, k2, k3⟩
  · intro s elapsedMs
    have hpub : ∀ q : CState,
        countChannelStatus (publishCurrentImage q) = 0 ∧
        countMqttStatus (publishCurrentImage q) = 0 ∧
        countCouchStatus (publishCurrentImage q) = 0 ∧
        countMqttCurrentImage (publishCurrentImage q) ≤ 1 := by
      intro q
      unfold publishCurrentImage countChannelStatus countMqttStatus
        countCouchStatus countMqttCurrentImage
      split
      · rcases q.images.get? q.idx with _ | img <;> simp [List.countP_cons]
      · simp
    by_cases hadv : shouldAdvanceAutomatically s elapsedMs = true
    · have ht : autoAdvanceTick s elapsedMs =
          (advanceNext s, publishCurrentImage (advanceNext s)) := by
        rw [autoAdvanceTick, if_pos hadv]
      rw [ht]
      obtain ⟨k1, k2, k3, k4⟩ := hpub (advanceNext s)
      exact ⟨k1, k2, k3, k4, fun _ => ⟨rfl, rfl⟩⟩
    · have ht : autoAdvanceTick s elapsedMs = (s, []) := by
        rw [autoAdvanceTick, if_neg hadv]
      rw [ht]
      exact ⟨rfl, rfl, rfl, Nat.zero_le 1, fun hc => absurd hc hadv⟩

/-- Witness for C6: the command half applied to an explicit Next on the
scenario state. -/
theorem c6_witness :
    countChannelStatus (sendStatusUpdate (advanceNext sScenario) 0) = 1 ∧
    countMqttStatus (sendStatusUpdate (advanceNext sScenario) 0) =
      (if (advanceNext sScenario).hasMqtt then 1 else 0) ∧
    countCouchStatus (sendStatusUpdate (advanceNext sScenario) 0) =
      (if (advanceNext sScenario).hasCouch then 1 else 0) :=
  c6_status_emissions.1 true 0 Command.Next sScenario (advanceNext sScenario)
    (sendStatusUpdate (advanceNext sScenario) 0) rfl

/-- Truncation of a value in `[0, t]` lands in `[0, t]`. -/
theorem toNat_truncQ_le (q : ℚ) (t : ℕ) (h0 : 0 ≤ q) (h : q ≤ (t : ℚ)) :
    (truncQ q).toNat ≤ t := by
  rw [truncQ, if_pos h0]
  have hf : ⌊q⌋ ≤ (t : ℤ) := by
    have := Int.floor_le_floor h
    simpa using this
  exact Int.toNat_le.mpr hf

/-- The scale factor is nonnegative. -/
theorem scaleFactor_nonneg (ow oh tw th : ℕ) :
    0 ≤ scaleFactor ow oh tw th :=
  le_min (div_nonneg (Nat.cast_nonneg tw) (Nat.cast_nonneg ow))
    (div_nonneg (Nat.cast_nonneg th) (Nat.cast_nonneg oh))

/-- The scaled content never exceeds the target on either axis. -/
theorem scaled_le_target (orig : SizedCanvas) (tw th : ℕ)
    (hw : 0 < orig.w) (hh : 0 < orig.h) :
    scaledW orig tw th ≤ tw ∧ scaledH orig tw th ≤ th := by
  have hwq : ((orig.w : ℚ)) ≠ 0 := by
    exact_mod_cast Nat.pos_iff_ne_zero.mp hw
  have hhq : ((orig.h : ℚ)) ≠ 0 := by
    exact_mod_cast Nat.pos_iff_ne_zero.mp hh
  constructor
  · apply toNat_truncQ_le
    · exact mul_nonneg (Nat.cast_nonneg _) (scaleFactor_nonneg _ _ _ _)
    · calc (orig.w : ℚ) * scaleFactor orig.w orig.h tw th
          ≤ (orig.w : ℚ) * ((tw : ℚ) / (orig.w : ℚ)) :=
            mul_le_mul_of_nonneg_left (min_le_left _ _) (Nat.cast_nonneg _)
        _ = (tw : ℚ) := by rw [mul_comm, div_mul_cancel₀ _ hwq]
  · apply toNat_truncQ_le
    · exact mul_nonneg (Nat.cast_nonneg _) (scaleFactor_nonneg _ _ _ _)
    · calc (orig.h : ℚ) * scaleFactor orig.w orig.h tw th
          ≤ (orig.h : ℚ) * ((th : ℚ) / (orig.h : ℚ)) :=
            mul_le_mul_of_nonneg_left (min_le_right _ _) (Nat.cast_nonneg _)
        _ = (th : ℚ) := by rw [mul_comm, div_mul_cancel₀ _ hhq]

/-- C7: `scale_image_to_fit` yields a canvas of exactly the target
dimensions; the scaled content (dimensions from the uniform scale
`min(tw/ow, th/oh)`, truncated) fits the target and is placed at the
floor-centred offset `(target - scaled)/2`; every pixel outside the
content's bounding box is the opaque-black background, and inside the box
the resampled content appears verbatim. -/
theorem c7_letterbox (resizeO : Canvas → ℕ → ℕ → Canvas)
    (orig : SizedCanvas) (tw th : ℕ) (hw : 0 < orig.w) (hh : 0 < orig.h) :
    (scaleImageToFit resizeO orig tw th).w = tw ∧
    (scaleImageToFit resizeO orig tw th).h = th ∧
    scaledW orig tw th ≤ tw ∧
    scaledH orig tw th ≤ th ∧
    (∀ x y,
      ¬ (offsetX orig tw th ≤ x ∧ x < offsetX orig tw th + scaledW orig tw th ∧
         offsetY orig tw th ≤ y ∧ y < offsetY orig tw th + scaledH orig tw th) →
      (scaleImageToFit resizeO orig tw th).pix x y = blackPix) ∧
    (∀ dx dy, dx < scaledW orig tw th → dy < scaledH orig tw th →
      (scaleImageToFit resizeO orig tw th).pix
          (offsetX orig tw th + dx) (offsetY orig tw th + dy) =
        resizeO orig.pix (scaledW orig tw th) (scaledH orig tw th) dx dy) := by
  obtain ⟨hsw, hsh⟩ := scaled_le_target orig tw th hw hh
  refine ⟨rfl, rfl, hsw, hsh, ?_, ?_⟩
  · intro x y hout
    show (if _ ∧ _ ∧ _ ∧ _ then _ else blackPix) = blackPix
    rw [if_neg hout]
  · intro dx dy h1 h2
    show (if _ ∧ _ ∧ _ ∧ _ then _ else blackPix) = _
    rw [if_pos ⟨Nat.le_add_right _ _, by omega, Nat.le_add_right _ _, by omega⟩,
      Nat.add_sub_cancel_left, Nat.add_sub_cancel_left]

/-- Witness for C7: a 1x1 source letterboxed into a 3x2 target (the
resampler oracle returns the constant `cFrom` content). -/
theorem c7_witness :
    (scaleImageToFit (fun _ _ _ => cFrom) ⟨1, 1, cFrom⟩ 3 2).w = 3 ∧
    (scaleImageToFit (fun _ _ _ => cFrom) ⟨1, 1, cFrom⟩ 3 2).h = 2 ∧
    scaledW ⟨1, 1, cFrom⟩ 3 2 ≤ 3 ∧
    scaledH ⟨1, 1, cFrom⟩ 3 2 ≤ 2 ∧
    (∀ x y,
      ¬ (offsetX ⟨1, 1, cFrom⟩ 3 2 ≤ x ∧
         x < offsetX ⟨1, 1, cFrom⟩ 3 2 + scaledW ⟨1, 1, cFrom⟩ 3 2 ∧
         offsetY ⟨1, 1, cFrom⟩ 3 2 ≤ y ∧
         y < offsetY ⟨1, 1, cFrom⟩ 3 2 + scaledH ⟨1, 1, cFrom⟩ 3 2) →
      (scaleImageToFit (fun _ _ _ => cFrom) ⟨1, 1, cFrom⟩ 3 2).pix x y = blackPix) ∧
    (∀ dx dy, dx < scaledW ⟨1, 1, cFrom⟩ 3 2 → dy < scaledH ⟨1, 1, cFrom⟩ 3 2 →
      (scaleImageToFit (fun _ _ _ => cFrom) ⟨1, 1, cFrom⟩ 3 2).pix
          (offsetX ⟨1, 1, cFrom⟩ 3 2 + dx) (offsetY ⟨1, 1, cFrom⟩ 3 2 + dy) =
        (fun _ _ _ => cFrom) cFrom (scaledW ⟨1, 1, cFrom⟩ 3 2)
          (scaledH ⟨1, 1, cFrom⟩ 3 2) dx dy) :=
  c7_letterbox (fun _ _ _ => cFrom) ⟨1, 1, cFrom⟩ 3 2 (by decide) (by decide)

/-- Pointwise-equal functions give equal flatMaps. -/
theorem flatMap_congr_mem {α β : Type} (l : List α) (f g : α → List β)
    (h : ∀ a ∈ l, f a = g a) : l.flatMap f = l.flatMap g := by
  induction l with
  | nil => rfl
  | cons a t ih =>
      rw [List.flatMap_cons, List.flatMap_cons, h a (List.mem_cons_self a t),
        ih fun b hb => h b (List.mem_cons_of_mem a hb)]

/-- A flatMap of constant-length-4 quads over `range n` has length `4n`. -/
theorem length_flatMap_quads {α : Type} (f : ℕ → List α)
    (h4 : ∀ i, (f i).length = 4) (n : ℕ) :
    ((List.range n).flatMap f).length = 4 * n := by
  induction n with
  | zero => rfl
  | succ k ih =>
      rw [List.range_succ, List.flatMap_append, List.length_append, ih,
        List.flatMap_cons, List.flatMap_nil, List.append_nil, h4]
      ring

/-- Taking `4m` elements of a quad flatMap keeps the first `min n m`
quads whole (quads are never split). -/
theorem take_flatMap_quads {α : Type} (f : ℕ → List α)
    (h4 : ∀ i, (f i).length = 4) (n m : ℕ) :
    ((List.range n).flatMap f).take (4 * m) =
      (List.range (min n m)).flatMap f := by
  rcases le_total n m with h | h
  · rw [min_eq_left h]
    apply List.take_of_length_le
    rw [length_flatMap_quads f h4]
    omega
  · rw [min_eq_right h]
    have hsplit : List.range n =
        List.range m ++ (List.range (n - m)).map (m + ·) := by
      conv_lhs => rw [← Nat.add_sub_cancel' h, List.range_add]
    rw [hsplit, List.flatMap_append]
    exact List.take_left' (length_flatMap_quads f h4 m)

/-- The row-major double loop over `y < h`, `x < w` is the single loop
over the pixel index `i < h·w` with `x = i % w`, `y = i / w`. -/
theorem rowmajor_flatMap {α : Type} (w h : ℕ) (f : ℕ → ℕ → List α) :
    (List.range h).flatMap (fun y => (List.range w).flatMap fun x => f x y) =
      (List.range (h * w)).flatMap (fun i => f (i % w) (i / w)) := by
  rcases Nat.eq_zero_or_pos w with hw | hw
  · subst hw
    simp
  · induction h with
    | zero => simp
    | succ k ih =>
        rw [List.range_succ, List.flatMap_append, ih, Nat.succ_mul,
          List.range_add, List.flatMap_append, List.flatMap_cons,
          List.flatMap_nil, List.append_nil, List.flatMap_map]
        congr 1
        apply flatMap_congr_mem
        intro x hx
        have hxw : x < w := List.mem_range.mp hx
        have hmod : (k * w + x) % w = x := by
          rw [Nat.add_comm, Nat.add_mul_mod_self_right, Nat.mod_eq_of_lt hxw]
        have hdiv : (k * w + x) / w = k := by
          rw [Nat.add_comm, Nat.add_mul_div_right x k hw,
            Nat.div_eq_of_lt hxw, Nat.zero_add]
        rw [hmod, hdiv]

/-- C8: the device-boundary conversion emits pixels in scanline order
(top-to-bottom rows, left-to-right within a row, index `i` mapping to
`(x, y) = (i % width, i / width)`), 4 bytes per pixel in B,G,R,A order;
the byte count is `4 · min(width·height, safe_pixels)` with
`safe_pixels = min(width·height·4, max_buffer_size) / 4`, never exceeding
the device's maximum capacity — all logical pixels past the clamp are
dropped in scan order. -/
theorem c8_bgra_buffer (fb : FbState) (imgW imgH : ℕ) (img : Canvas) :
    imageToBgraBuffer fb imgW imgH img =
      (List.range (min (fb.width * fb.height)
          (min (fb.width * fb.height * 4) fb.maxBufferSize / 4))).flatMap
        (fun i => bgraOfPix (srcPix imgW imgH img (i % fb.width) (i / fb.width))) ∧
    (imageToBgraBuffer fb imgW imgH img).length =
      4 * min (fb.width * fb.height)
          (min (fb.width * fb.height * 4) fb.maxBufferSize / 4) ∧
    (imageToBgraBuffer fb imgW imgH img).length ≤ fb.maxBufferSize := by
  have h4 : ∀ i : ℕ,
      (bgraOfPix (srcPix imgW imgH img (i % fb.width) (i / fb.width))).length = 4 :=
    fun i => rfl
  have h1 : imageToBgraBuffer fb imgW imgH img =
      (List.range (min (fb.width * fb.height)
          (min (fb.width * fb.height * 4) fb.maxBufferSize / 4))).flatMap
        (fun i => bgraOfPix (srcPix imgW imgH img (i % fb.width) (i / fb.width))) := by
    rw [imageToBgraBuffer]
    rw [rowmajor_flatMap fb.width fb.height
      (fun x y => bgraOfPix (srcPix imgW imgH img x y))]
    rw [take_flatMap_quads _ h4, Nat.mul_comm fb.height fb.width]
  have h2 : (imageToBgraBuffer fb imgW imgH img).length =
      4 * min (fb.width * fb.height)
          (min (fb.width * fb.height * 4) fb.maxBufferSize / 4) := by
    rw [h1, length_flatMap_quads _ h4]
  refine ⟨h1, h2, ?_⟩
  rw [h2]
  omega

/-- Truncation toward zero of an integer value is that integer. -/
theorem truncQ_intCast (z : ℤ) : truncQ ((z : ℚ)) = z := by
  rw [truncQ]
  split
  · exact_mod_cast Int.floor_intCast z
  · rw [show -((z : ℚ)) = (((-z : ℤ)) : ℚ) by push_cast; ring,
      Int.floor_intCast]
    omega

/-- Truncation toward zero of a natural value is that natural. -/
theorem truncQ_natCast (n : ℕ) : truncQ ((n : ℚ)) = (n : ℤ) := by
  have := truncQ_intCast ((n : ℤ))
  rwa [show (((n : ℤ)) : ℚ) = ((n : ℚ)) by push_cast; ring] at this

/-- Truncation of zero. -/
theorem truncQ_zero : truncQ 0 = 0 := by
  rw [truncQ, if_pos le_rfl]
  exact Int.floor_zero

/-- The saturating u8 cast is the identity on in-range channel values. -/
theorem castU8_natCast (n : ℕ) (h : n ≤ 255) : castU8 ((n : ℚ)) = n := by
  rw [castU8, if_neg (not_lt.mpr (Nat.cast_nonneg n)),
    if_neg (not_lt.mpr (by exact_mod_cast h)), Int.floor_natCast]
  omega

/-- Blending with weight 0 returns the first pixel. -/
theorem blendPixels_zero (p q : Pix) (hp : PixWf p) :
    blendPixels 0 p q = p := by
  obtain ⟨h1, h2, h3, h4⟩ := hp
  rcases p with ⟨pr, pg, pb, pa⟩
  simp only [blendPixels, mul_zero, add_zero, sub_zero, mul_one]
  rw [castU8_natCast pr h1, castU8_natCast pg h2, castU8_natCast pb h3,
    castU8_natCast pa h4]

/-- Blending with weight 1 returns the second pixel. -/
theorem blendPixels_one (p q : Pix) (hq : PixWf q) :
    blendPixels 1 p q = q := by
  obtain ⟨h1, h2, h3, h4⟩ := hq
  rcases q with ⟨qr, qg, qb, qa⟩
  simp only [blendPixels, sub_self, mul_zero, zero_add, mul_one]
  rw [castU8_natCast qr h1, castU8_natCast qg h2, castU8_natCast qb h3,
    castU8_natCast qa h4]

/-- Every easing maps raw progress 0 to 0. -/
theorem applyEasing_zero (o : Oracles) (k : TransitionType) :
    applyEasing o 0 k = 0 := by
  cases k <;> simp [applyEasing]

/-- Every easing except Bounce maps raw progress 1 to 1 (Bounce maps it
to 2: `f = 2·1 - 2 = 0`, giving `1 + 0 + 1`). -/
theorem applyEasing_one (o : Oracles) (k : TransitionType)
    (hk : k ≠ TransitionType.Bounce) : applyEasing o 1 k = 1 := by
  cases k <;> first
    | exact absurd rfl hk
    | rfl
    | (simp [applyEasing] <;> norm_num)

/-- Glyph pixels of the overlay label stay inside the background
rectangle. -/
theorem glyphOn_bounds (o : Oracles) (len x y : ℕ)
    (h : glyphOn o len x y = true) : x < 32 * len + 16 ∧ y < 36 := by
  rw [glyphOn] at h
  simp only [List.any_eq_true, List.mem_range, Bool.and_eq_true,
    decide_eq_true_eq] at h
  obtain ⟨i, hi, row, hrow, col, hcol, -, dy, hdy, dx, hdx, hxe, hye⟩ := h
  omega

/-- Outside the background rectangle the overlay leaves pixels
untouched. -/
theorem addTransitionText_outside (o : Oracles) (k : TransitionType)
    (base : Canvas) (x y : ℕ) (hout : ¬ (x < bgW k ∧ y < bgH)) :
    addTransitionText o k base x y = base x y := by
  have hg : ¬ (glyphOn o (nameLen k) x y = true) := by
    intro hgl
    obtain ⟨hx36, hy36⟩ := glyphOn_bounds o (nameLen k) x y hgl
    exact hout ⟨hx36, hy36⟩
  rw [addTransitionText, if_neg hg, if_neg hout]

/-- Truncation of `n · 1 · d` for integer direction `d`. -/
theorem truncQ_one_mul (n : ℕ) (d : ℤ) :
    truncQ ((n : ℚ) * 1 * ((d : ℤ) : ℚ)) = (n : ℤ) * d := by
  rw [show (n : ℚ) * 1 * ((d : ℤ) : ℚ) = (((n : ℤ) * d : ℤ) : ℚ) by
    push_cast; ring, truncQ_intCast]

/-- Slide at progress 0 shows the `from` canvas at every pixel, for each
of the four unit directions. -/
theorem slidePix_zero (img1 img2 : Canvas) (w h : ℕ) (dirx diry : ℤ)
    (x y : ℕ) (hx : x < w) (hy : y < h)
    (hd : (dirx = 1 ∨ dirx = -1) ∧ diry = 0 ∨
      dirx = 0 ∧ (diry = 1 ∨ diry = -1)) :
    slidePix img1 img2 w h 0 dirx diry x y = img1 x y := by
  have h0x : truncQ ((w : ℚ) * 0 * ((dirx : ℤ) : ℚ)) = 0 := by
    rw [show (w : ℚ) * 0 * ((dirx : ℤ) : ℚ) = 0 by ring, truncQ_zero]
  have h0y : truncQ ((h : ℚ) * 0 * ((diry : ℤ) : ℚ)) = 0 := by
    rw [show (h : ℚ) * 0 * ((diry : ℤ) : ℚ) = 0 by ring, truncQ_zero]
  simp only [slidePix, h0x, h0y]
  rcases hd with ⟨hdx | hdx, hdy⟩ | ⟨hdx, hdy | hdy⟩ <;> subst hdx <;> subst hdy <;>
    (rw [if_neg (by omega), if_pos ⟨by omega, by omega, by omega, by omega⟩]
     congr 1)

/-- Slide at progress 1 shows the `to` canvas at every pixel, for each of
the four unit directions. -/
theorem slidePix_one (img1 img2 : Canvas) (w h : ℕ) (dirx diry : ℤ)
    (x y : ℕ) (hx : x < w) (hy : y < h)
    (hd : (dirx = 1 ∨ dirx = -1) ∧ diry = 0 ∨
      dirx = 0 ∧ (diry = 1 ∨ diry = -1)) :
    slidePix img1 img2 w h 1 dirx diry x y = img2 x y := by
  simp only [slidePix, truncQ_one_mul]
  rcases hd with ⟨hdx | hdx, hdy⟩ | ⟨hdx, hdy | hdy⟩ <;> subst hdx <;> subst hdy <;>
    (rw [if_pos ⟨by omega, by omega, by omega, by omega⟩]
     congr 1
     omega)

/-- Wipe boundary behaviour: at progress 0, every direction shows the
`from` canvas; at progress 1, Left (0) and Down (3) show the `to`
canvas everywhere (Right and Up keep the `from` column `x = 0` / row
`y = 0`, settled separately). -/
theorem wipePix_boundary (img1 img2 : Canvas) (w h x y : ℕ)
    (hx : x < w) (hy : y < h) :
    wipePix img1 img2 w h 0 0 x y = img1 x y ∧
    wipePix img1 img2 w h 0 1 x y = img1 x y ∧
    wipePix img1 img2 w h 0 2 x y = img1 x y ∧
    wipePix img1 img2 w h 0 3 x y = img1 x y ∧
    wipePix img1 img2 w h 1 0 x y = img2 x y ∧
    wipePix img1 img2 w h 1 3 x y = img2 x y := by
  have hw : (0 : ℚ) < (w : ℚ) := by exact_mod_cast Nat.zero_lt_of_lt hx
  have hh : (0 : ℚ) < (h : ℚ) := by exact_mod_cast Nat.zero_lt_of_lt hy
  have hx0 : ¬ ((x : ℚ) / (w : ℚ) < 0) :=
    not_lt.mpr (div_nonneg (Nat.cast_nonneg x) (le_of_lt hw))
  have hx1 : (x : ℚ) / (w : ℚ) < 1 := (div_lt_one hw).mpr (by exact_mod_cast hx)
  have hy0 : ¬ ((y : ℚ) / (h : ℚ) < 0) :=
    not_lt.mpr (div_nonneg (Nat.cast_nonneg y) (le_of_lt hh))
  have hy1 : (y : ℚ) / (h : ℚ) < 1 := (div_lt_one hh).mpr (by exact_mod_cast hy)
  refine ⟨?_, ?_, ?_, ?_, ?_, ?_⟩ <;> simp only [wipePix] <;> norm_num
  · simp [hx0]
  · exact fun hc => absurd hc (not_lt.mpr (le_of_lt hx1))
  · exact fun hc => absurd hc (not_lt.mpr (le_of_lt hy1))
  · simp [hy0]
  · exact fun hc => absurd hx1 (not_lt.mpr hc)
  · exact fun hc => absurd hy1 (not_lt.mpr hc)

/-- Circular wipe at progress 0 shows the `from` canvas everywhere. -/
theorem circularPix_zero (img1 img2 : Canvas) (w h x y : ℕ) :
    circularPix img1 img2 w h 0 x y = img1 x y := by
  simp only [circularPix]
  rw [if_neg]
  rintro ⟨-, hlt⟩
  have hz : ((w : ℚ) ^ 2 + (h : ℚ) ^ 2) / 4 * (0 : ℚ) ^ 2 = 0 := by ring
  rw [hz] at hlt
  exact absurd hlt (not_lt.mpr (by positivity))

/-- Circular wipe at progress 1 shows the `to` canvas at every pixel
except the exact corner `(0, 0)` (the only grid point at the full wipe
radius). -/
theorem circularPix_one (img1 img2 : Canvas) (w h x y : ℕ)
    (hx : x < w) (hy : y < h) (hxy : 1 ≤ x ∨ 1 ≤ y) :
    circularPix img1 img2 w h 1 x y = img2 x y := by
  simp only [circularPix]
  rw [if_pos]
  refine ⟨zero_le_one, ?_⟩
  have hxw : (x : ℚ) + 1 ≤ (w : ℚ) := by exact_mod_cast hx
  have hyh : (y : ℚ) + 1 ≤ (h : ℚ) := by exact_mod_cast hy
  have hx0 : (0 : ℚ) ≤ (x : ℚ) := Nat.cast_nonneg x
  have hy0 : (0 : ℚ) ≤ (y : ℚ) := Nat.cast_nonneg y
  rcases hxy with h1 | h1
  · have h1q : (1 : ℚ) ≤ (x : ℚ) := by exact_mod_cast h1
    have t1 : (1 : ℚ) ≤ (x : ℚ) * ((w : ℚ) - (x : ℚ)) := by nlinarith
    have t2 : (0 : ℚ) ≤ (y : ℚ) * ((h : ℚ) - (y : ℚ)) := by nlinarith
    nlinarith [t1, t2]
  · have h1q : (1 : ℚ) ≤ (y : ℚ) := by exact_mod_cast h1
    have t1 : (1 : ℚ) ≤ (y : ℚ) * ((h : ℚ) - (y : ℚ)) := by nlinarith
    have t2 : (0 : ℚ) ≤ (x : ℚ) * ((w : ℚ) - (x : ℚ)) := by nlinarith
    nlinarith [t1, t2]

/-- Diagonal wipe at progress 0 shows the `from` canvas everywhere. -/
theorem diagonalPix_zero (img1 img2 : Canvas) (w h x y : ℕ) :
    diagonalPix img1 img2 w h 0 x y = img1 x y := by
  rw [diagonalPix, if_neg]
  rw [mul_zero]
  exact not_lt.mpr (by positivity)

/-- Diagonal wipe at progress 1 shows the `to` canvas everywhere. -/
theorem diagonalPix_one (img1 img2 : Canvas) (w h x y : ℕ)
    (hx : x < w) (hy : y < h) :
    diagonalPix img1 img2 w h 1 x y = img2 x y := by
  rw [diagonalPix, if_pos]
  have hxw : (x : ℚ) + 1 ≤ (w : ℚ) := by exact_mod_cast hx
  have hyh : (y : ℚ) + 1 ≤ (h : ℚ) := by exact_mod_cast hy
  rw [mul_one]
  linarith

/-- Morph at progress 0 shows the `from` canvas: the displacement is
scaled by a zero amplitude (whatever the sine/cosine oracles return), so
the sample coordinate is the identity and the blend weight is 0. -/
theorem morphPix_zero (o : Oracles) (img1 img2 : Canvas) (w h x y : ℕ)
    (hx : x < w) (hy : y < h) (h1 : PixWf (img1 x y)) :
    morphPix o img1 img2 w h 0 x y = img1 x y := by
  simp only [morphPix]
  have hwx : o.sinO ((y : ℚ) * (1/50) + 0 * (157/25)) * (0 * (1/10)) * (w : ℚ) = 0 := by
    ring
  have hwy : o.cosO ((x : ℚ) * (1/50) + 0 * (157/25)) * (0 * (1/10)) * (h : ℚ) = 0 := by
    ring
  rw [hwx, hwy, add_zero, add_zero, truncQ_natCast, truncQ_natCast]
  have ex : (min (max ((x : ℕ) : ℤ) 0) ((w : ℤ) - 1)).toNat = x := by omega
  have ey : (min (max ((y : ℕ) : ℤ) 0) ((h : ℤ) - 1)).toNat = y := by omega
  rw [ex, ey]
  exact blendPixels_zero _ _ h1

/-- Morph at progress 1 shows the `to` canvas: the blend weight is 1, so
the displaced `from` sample does not contribute. -/
theorem morphPix_one (o : Oracles) (img1 img2 : Canvas) (w h x y : ℕ)
    (h2 : PixWf (img2 x y)) :
    morphPix o img1 img2 w h 1 x y = img2 x y := by
  simp only [morphPix]
  exact blendPixels_one _ _ h2

/-- C3 counterexample: WipeRight at progress 1 on 2x40 canvases keeps the
`from` pixel in the whole leading column `x = 0` — here at `(0, 36)`,
which lies outside the diagnostic overlay rectangle — because the source
boundary test `x/width > 1 - progress` is strict and `0 > 0` is false.
The claim's "pure `to`-derived at progress 1" therefore fails for a
non-stochastic kind. -/
theorem c3_counterexample :
    createTransitionFrame zeroOracles TransitionType.WipeRight cFrom cTo
        2 40 1 0 36 = cFrom 0 36 ∧
    createTransitionFrame zeroOracles TransitionType.WipeRight cFrom cTo
        2 40 1 0 36 ≠ cTo 0 36 ∧
    ¬ ((0 : ℕ) < bgW TransitionType.WipeRight ∧ (36 : ℕ) < bgH) := by
  have hout : ¬ ((0 : ℕ) < bgW TransitionType.WipeRight ∧ (36 : ℕ) < bgH) := by
    decide
  have h1 : createTransitionFrame zeroOracles TransitionType.WipeRight cFrom
      cTo 2 40 1 0 36 = cFrom 0 36 := by
    rw [createTransitionFrame,
      addTransitionText_outside zeroOracles TransitionType.WipeRight
        (basePix zeroOracles TransitionType.WipeRight cFrom cTo 2 40
          (applyEasing zeroOracles 1 TransitionType.WipeRight)) 0 36 hout,
      applyEasing_one zeroOracles TransitionType.WipeRight (by decide)]
    show wipePix cFrom cTo 2 40 1 1 0 36 = cFrom 0 36
    simp only [wipePix]
    norm_num
  exact ⟨h1, by rw [h1]; decide, hout⟩

/-- C3 (amended): for every non-stochastic kind and equal-sized
well-formed canvases, at every pixel outside the diagnostic overlay
rectangle the composite at progress 0 equals the `from` pixel; and at
progress 1 it equals the `to` pixel for every non-stochastic kind except
WipeRight and WipeUp (whose strict boundary keeps the `from` column
`x = 0` / row `y = 0`) and Bounce (whose easing maps 1 to 2, an
extrapolated blend).  The stochastic kinds (Dissolve, Pixelate) are
excluded per the claim's expected-ratio carve-out. -/
theorem c3_boundary_frames (o : Oracles) (k : TransitionType)
    (img1 img2 : Canvas) (w h x y : ℕ)
    (hwf1 : CanvasWf img1) (hwf2 : CanvasWf img2)
    (hx : x < w) (hy : y < h)
    (hout : ¬ (x < bgW k ∧ y < bgH)) (hns : ¬ stochastic k) :
    createTransitionFrame o k img1 img2 w h 0 x y = img1 x y ∧
    (k ≠ TransitionType.WipeRight → k ≠ TransitionType.WipeUp →
      k ≠ TransitionType.Bounce →
      createTransitionFrame o k img1 img2 w h 1 x y = img2 x y) := by
  obtain ⟨w0l, w0r, w0u, w0d, w1l, w1d⟩ := wipePix_boundary img1 img2 w h x y hx hy
  have hxy1 : 1 ≤ x ∨ 1 ≤ y := by
    rcases not_and_or.mp hout with hbx | hby
    · left
      have h16 : 16 ≤ bgW k := by rw [bgW]; omega
      omega
    · right
      have h36 : bgH = 36 := rfl
      omega
  constructor
  · rw [createTransitionFrame,
      addTransitionText_outside o k
        (basePix o k img1 img2 w h (applyEasing o 0 k)) x y hout,
      applyEasing_zero]
    cases k with
    | Dissolve => exact absurd trivial hns
    | Pixelate => exact absurd trivial hns
    | Fade => exact blendPixels_zero _ _ (hwf1 x y)
    | Bounce => exact blendPixels_zero _ _ (hwf1 x y)
    | Elastic => exact blendPixels_zero _ _ (hwf1 x y)
    | EaseIn => exact blendPixels_zero _ _ (hwf1 x y)
    | EaseOut => exact blendPixels_zero _ _ (hwf1 x y)
    | EaseInOut => exact blendPixels_zero _ _ (hwf1 x y)
    | Accelerated => exact blendPixels_zero _ _ (hwf1 x y)
    | SlideLeft =>
        exact slidePix_zero img1 img2 w h (-1) 0 x y hx hy
          (Or.inl ⟨Or.inr rfl, rfl⟩)
    | SlideRight =>
        exact slidePix_zero img1 img2 w h 1 0 x y hx hy
          (Or.inl ⟨Or.inl rfl, rfl⟩)
    | SlideUp =>
        exact slidePix_zero img1 img2 w h 0 (-1) x y hx hy
          (Or.inr ⟨rfl, Or.inr rfl⟩)
    | SlideDown =>
        exact slidePix_zero img1 img2 w h 0 1 x y hx hy
          (Or.inr ⟨rfl, Or.inl rfl⟩)
    | WipeLeft => exact w0l
    | WipeRight => exact w0r
    | WipeUp => exact w0u
    | WipeDown => exact w0d
    | CircularWipe => exact circularPix_zero img1 img2 w h x y
    | DiagonalWipe => exact diagonalPix_zero img1 img2 w h x y
    | Morph => exact morphPix_zero o img1 img2 w h x y hx hy (hwf1 x y)
  · intro hkr hku hkb
    rw [createTransitionFrame,
      addTransitionText_outside o k
        (basePix o k img1 img2 w h (applyEasing o 1 k)) x y hout,
      applyEasing_one o k hkb]
    cases k with
    | Dissolve => exact absurd trivial hns
    | Pixelate => exact absurd trivial hns
    | WipeRight => exact absurd rfl hkr
    | WipeUp => exact absurd rfl hku
    | Bounce => exact absurd rfl hkb
    | Fade => exact blendPixels_one _ _ (hwf2 x y)
    | Elastic => exact blendPixels_one _ _ (hwf2 x y)
    | EaseIn => exact blendPixels_one _ _ (hwf2 x y)
    | EaseOut => exact blendPixels_one _ _ (hwf2 x y)
    | EaseInOut => exact blendPixels_one _ _ (hwf2 x y)
    | Accelerated => exact blendPixels_one _ _ (hwf2 x y)
    | SlideLeft =>
        exact slidePix_one img1 img2 w h (-1) 0 x y hx hy
          (Or.inl ⟨Or.inr rfl, rfl⟩)
    | SlideRight =>
        exact slidePix_one img1 img2 w h 1 0 x y hx hy
          (Or.inl ⟨Or.inl rfl, rfl⟩)
    | SlideUp =>
        exact slidePix_one img1 img2 w h 0 (-1) x y hx hy
          (Or.inr ⟨rfl, Or.inr rfl⟩)
    | SlideDown =>
        exact slidePix_one img1 img2 w h 0 1 x y hx hy
          (Or.inr ⟨rfl, Or.inl rfl⟩)
    | WipeLeft => exact w1l
    | WipeDown => exact w1d
    | CircularWipe => exact circularPix_one img1 img2 w h x y hx hy hxy1
    | DiagonalWipe => exact diagonalPix_one img1 img2 w h x y hx hy
    | Morph => exact morphPix_one o img1 img2 w h x y (hwf2 x y)

/-- Witness for C3: Fade on the constant 2x40 canvases at the
outside-overlay pixel `(0, 36)`. -/
theorem c3_witness :
    createTransitionFrame zeroOracles TransitionType.Fade cFrom cTo
        2 40 0 0 36 = cFrom 0 36 ∧
    createTransitionFrame zeroOracles TransitionType.Fade cFrom cTo
        2 40 1 0 36 = cTo 0 36 := by
  have hwf1 : CanvasWf cFrom := fun _ _ =>
    ⟨by norm_num [cFrom], by norm_num [cFrom], by norm_num [cFrom],
     by norm_num [cFrom]⟩
  have hwf2 : CanvasWf cTo := fun _ _ =>
    ⟨by norm_num [cTo], by norm_num [cTo], by norm_num [cTo],
     by norm_num [cTo]⟩
  have h := c3_boundary_frames zeroOracles TransitionType.Fade cFrom cTo
    2 40 0 36 hwf1 hwf2 (by decide) (by decide) (by decide) (by decide)
  exact ⟨h.1, h.2 (by decide) (by decide) (by decide)⟩

end Signage
